import Mathlib

/-! Verification of the codexgigantus multi-source ingestion core.

Go strings are modelled as Lean `String` (a sequence of Unicode code points);
Go's byte-length `len` is modelled by `goLen` (UTF-8 byte count), and Go's
`strings` / `path/filepath` helpers are embedded below on the char level,
which is faithful for the ASCII patterns the validators use.
-/

namespace Codex

/-- UTF-8 encoded size of one character, as Go `len` counts it. -/
def charUtf8Size (c : Char) : Nat :=
  if c.val < 0x80 then 1
  else if c.val < 0x800 then 2
  else if c.val < 0x10000 then 3
  else 4

/-- Go `len(s)`: number of UTF-8 bytes of the string. -/
def goLen (s : String) : Nat :=
  s.toList.foldl (fun n c => n + charUtf8Size c) 0

/-- Go `strings.ToUpper` restricted to its ASCII action. -/
def goToUpper (s : String) : String :=
  String.mk (s.toList.map Char.toUpper)

/-- Go `strings.ToLower` restricted to its ASCII action. -/
def goToLower (s : String) : String :=
  String.mk (s.toList.map Char.toLower)

/-- Here `listStartsWith pre l` means: `pre` is a prefix of `l`. -/
def listStartsWith : List Char → List Char → Bool
  | [], _ => true
  | _ :: _, [] => false
  | a :: as, b :: bs => a == b && listStartsWith as bs

/-- Here `listContains needle hay` means: `needle` occurs as a contiguous substring of `hay`. -/
def listContains (needle : List Char) : List Char → Bool
  | [] => needle.isEmpty
  | c :: t => listStartsWith needle (c :: t) || listContains needle t

/-- Go `strings.Contains(hay, needle)`. -/
def goContains (hay needle : String) : Bool :=
  listContains needle.toList hay.toList

/-- Go `strings.HasPrefix(s, pre1)`. -/
def goStartsWith (s pre1 : String) : Bool :=
  listStartsWith pre1.toList s.toList

/-- Go `unicode.IsSpace` on the characters relevant to `strings.TrimSpace`. -/
def isGoSpace (c : Char) : Bool :=
  c == ' ' || c == '\t' || c == '\n' || c == '\x0b' || c == '\x0c' || c == '\r' ||
  c == '\u0085' || c == '\u00A0'

/-- Go `strings.TrimSpace`. -/
def goTrimSpace (s : String) : String :=
  String.mk (((s.toList.dropWhile isGoSpace).reverse.dropWhile isGoSpace).reverse)

/-- Go `strings.TrimPrefix(s, pre1)`. -/
def goTrimLeading (s pre1 : String) : String :=
  if listStartsWith pre1.toList s.toList then String.mk (s.toList.drop pre1.toList.length)
  else s

/-- Go `filepath.Base` (Unix separators). -/
def filepathBase (path : String) : String :=
  let cs := path.toList
  if cs.isEmpty then "."
  else
    let stripped := (cs.reverse.dropWhile (· == '/')).reverse
    if stripped.isEmpty then "/"
    else String.mk ((stripped.reverse.takeWhile (· != '/')).reverse)

/-- Scanner for `filepathExt`: walks the reversed path, collecting the
characters of the final element until a dot or a separator is found. -/
def extScan : List Char → List Char → String
  | [], _ => ""
  | c :: rest, acc =>
    if c == '/' then ""
    else if c == '.' then String.mk ('.' :: acc)
    else extScan rest (c :: acc)

/-- Go `filepath.Ext`: the suffix beginning at the final dot in the final
element of the path; empty if there is no dot. -/
def filepathExt (path : String) : String :=
  extScan path.toList.reverse []

/-- Model of `utils.FileResult`: one (path, content) record produced by any source. -/
structure FileResult where
  Path : String
  Content : String
deriving Repr, DecidableEq

namespace validation

/-- Model of `validation.ValidationError` from `security.go`. -/
structure ValidationError where
  Field : String
  Message : String
deriving Repr, DecidableEq

/-- Model of `(*ValidationError).Error()`. -/
def ValidationError.errorString (e : ValidationError) : String :=
  "validation error for " ++ e.Field ++ ": " ++ e.Message

def MaxPathLength : Nat := 4096
def MaxQueryLength : Nat := 10000
def MaxConfigNameLength : Nat := 255
def MaxTableNameLength : Nat := 128
def MaxColumnNameLength : Nat := 128

/-- The `sqlInjectionPatterns` slice, verbatim from `security.go`
(note the lowercase `xp_` and `sp_` entries). -/
def sqlInjectionPatterns : List String :=
  ["--", "/*", "*/", ";", "'", "\"", "xp_", "sp_",
   "DROP ", "INSERT ", "UPDATE ", "DELETE ", "EXEC", "UNION"]

def isAsciiLetter (c : Char) : Bool :=
  ('a' ≤ c && c ≤ 'z') || ('A' ≤ c && c ≤ 'Z')

def isIdentTailChar (c : Char) : Bool :=
  isAsciiLetter c || ('0' ≤ c && c ≤ '9') || c == '_'

/-- Model of `sqlIdentifierPattern.MatchString`, the anchored regex
`^[a-zA-Z][a-zA-Z0-9_]*$` on the char level. -/
def sqlIdentifierMatch (s : String) : Bool :=
  match s.toList with
  | [] => false
  | c :: rest => isAsciiLetter c && rest.all isIdentTailChar

/-- Model of `validation.ValidateSQLIdentifier` from `security.go`.
`none` models the Go `nil` error (acceptance). -/
def ValidateSQLIdentifier (name fieldName : String) : Option ValidationError :=
  if name = "" then some ⟨fieldName, "cannot be empty"⟩
  else if MaxTableNameLength < goLen name then
    some ⟨fieldName, "exceeds maximum length of " ++ toString MaxTableNameLength ++ " characters"⟩
  else if !(sqlIdentifierMatch name) then
    some ⟨fieldName,
      "must contain only alphanumeric characters and underscores, starting with a letter"⟩
  else
    let upperName := goToUpper name
    if sqlInjectionPatterns.any (fun pattern => goContains upperName pattern) then
      some ⟨fieldName, "contains potentially dangerous SQL characters or keywords"⟩
    else none

/-- The `dangerousKeywords` slice of `ValidateCustomQuery`, verbatim. -/
def dangerousKeywords : List String :=
  ["DROP", "DELETE", "UPDATE", "INSERT", "ALTER", "CREATE", "EXEC", "EXECUTE",
   "xp_", "sp_", "INTO OUTFILE", "INTO DUMPFILE", "LOAD_FILE"]

/-- Model of `validation.ValidateCustomQuery` from `security.go`. -/
def ValidateCustomQuery (query fieldName : String) : Option ValidationError :=
  if query = "" then none
  else if MaxQueryLength < goLen query then
    some ⟨fieldName, "exceeds maximum length of " ++ toString MaxQueryLength ++ " characters"⟩
  else
    let upperQuery := goTrimSpace (goToUpper query)
    if !(goStartsWith upperQuery "SELECT") then
      some ⟨fieldName, "must be a SELECT statement"⟩
    else
      match dangerousKeywords.find? (fun keyword => goContains upperQuery keyword) with
      | some keyword => some ⟨fieldName, "contains forbidden keyword: " ++ keyword⟩
      | none => none

/-- Model of `validation.ValidatePort`. -/
def ValidatePort (port : Int) (fieldName : String) : Option ValidationError :=
  if port < 0 || 65535 < port then some ⟨fieldName, "must be between 0 and 65535"⟩
  else none

/-- The dangerous-character list of `ValidateHost`, verbatim. -/
def hostDangerousChars : List String :=
  ["|", ";", "&", "`", "$", "(", ")", "<", ">"]

/-- Model of `validation.ValidateHost`. -/
def ValidateHost (host fieldName : String) : Option ValidationError :=
  if host = "" then some ⟨fieldName, "cannot be empty"⟩
  else if 255 < goLen host then
    some ⟨fieldName, "exceeds maximum length of 255 characters"⟩
  else if hostDangerousChars.any (fun pattern => goContains host pattern) then
    some ⟨fieldName, "contains potentially dangerous characters"⟩
  else none

/-- Model of `validation.ValidateDatabaseType`. -/
def ValidateDatabaseType (dbType fieldName : String) : Option ValidationError :=
  if dbType = "" then some ⟨fieldName, "cannot be empty"⟩
  else if !(goToLower dbType == "postgres" || goToLower dbType == "mysql" ||
            goToLower dbType == "sqlite") then
    some ⟨fieldName, "must be one of: postgres, mysql, sqlite"⟩
  else none

end validation

namespace processor

/-- Model of `processor.Config` (`config.go` re-export): the fields consulted by
`ProcessFiles`, `shouldIgnoreDir` and `shouldIgnoreFile`. -/
structure Config where
  Dirs : List String
  IgnoreFiles : List String
  IgnoreDirs : List String
  IgnoreExts : List String
  IncludeExts : List String
  Recursive : Bool
  Debug : Bool
deriving Repr

/-- Model of `processor.shouldIgnoreDir` from `file_processor.go`. -/
def shouldIgnoreDir (path : String) (config : Config) : Bool :=
  config.IgnoreDirs.any (fun ignoreDir => goContains path ignoreDir)

/-- Model of `processor.shouldIgnoreFile` from `file_processor.go`: exact-name ignore,
then the non-empty extension allowlist, then (unconditionally) the extension
denylist. -/
def shouldIgnoreFile (path : String) (config : Config) : Bool :=
  let filename := filepathBase path
  let ext := goTrimLeading (filepathExt path) "."
  if config.IgnoreFiles.any (fun ignoreFile => filename == ignoreFile) then true
  else if 0 < config.IncludeExts.length &&
          !(config.IncludeExts.any (fun includeExt => ext == includeExt)) then true
  else config.IgnoreExts.any (fun ignoreExt => ext == ignoreExt)

mutual
/-- A filesystem tree as seen by `filepath.Walk`.  `file` with `none` content
models a regular file whose `os.ReadFile` fails; `errNode` models an entry
whose `lstat`/read-dir fails, so the walk function receives a non-nil `err`. -/
inductive FSTree where
  | file (name : String) (content : Option String)
  | errNode (name : String)
  | dir (name : String) (children : FSForest)
/-- The ordered children of a directory (lexical walk order). -/
inductive FSForest where
  | nil
  | cons (head : FSTree) (tail : FSForest)
end

def FSTree.name : FSTree → String
  | .file n _ => n
  | .errNode n => n
  | .dir n _ => n

mutual
/-- One `filepath.Walk` invocation of the closure in `ProcessFiles`, at the
node reached by `path` under root `root`.  Walk errors and read errors are
returned by the closure and so abort the walk (`Except.error`). -/
def walkTree (config : Config) (root path : String) : FSTree → Except String (List FileResult)
  | .errNode _ => .error ("walk error at " ++ path)
  | .file _ content =>
    if shouldIgnoreFile path config then .ok []
    else
      match content with
      | none => .error ("read error at " ++ path)
      | some c => .ok [⟨path, c⟩]
  | .dir _ children =>
    if shouldIgnoreDir path config then .ok []
    else if !config.Recursive && path ≠ root then .ok []
    else walkForest config root path children

/-- Walks the children of a directory in order, aborting on the first error
exactly as `filepath.Walk` propagates a non-nil return of the walk closure. -/
def walkForest (config : Config) (root path : String) : FSForest → Except String (List FileResult)
  | .nil => .ok []
  | .cons t rest =>
    match walkTree config root (path ++ "/" ++ t.name) t with
    | .error e => .error e
    | .ok rs =>
      match walkForest config root path rest with
      | .error e => .error e
      | .ok rs2 => .ok (rs ++ rs2)
end

/-- The per-root loop of `processor.ProcessFiles`: on a walk error the whole
call returns `(nil, err)`, discarding records accumulated so far.  `fs` maps a
root path to the tree found there. -/
def ProcessFilesLoop (config : Config) (fs : String → FSTree) :
    List String → List FileResult → List FileResult × Option String
  | [], results => (results, none)
  | dir :: rest, results =>
    match walkTree config dir dir (fs dir) with
    | .error e => ([], some e)
    | .ok rs => ProcessFilesLoop config fs rest (results ++ rs)

/-- Model of `processor.ProcessFiles` from `file_processor.go`, as a function of the
configuration and of the filesystem contents at each root. -/
def ProcessFiles (config : Config) (fs : String → FSTree) :
    List FileResult × Option String :=
  ProcessFilesLoop config fs config.Dirs []

end processor

namespace csv

/-- Model of `csv.Processor` from `csv.go`.  Column indices are modelled as `Nat`:
`Validate` rejects negative indices before `Process` runs. -/
structure Processor where
  FilePath : String
  Delimiter : Char
  PathColumn : Nat
  ContentColumn : Nat
  HasHeader : Bool
  Debug : Bool
deriving Repr

/-- The row loop of `csv.Process`: each `continue` of the Go loop is a
recursive call that drops the offending row. -/
def processRows (p : Processor) : List (List String) → List FileResult
  | [] => []
  | record :: rest =>
    if record.length ≤ p.PathColumn then processRows p rest
    else if record.length ≤ p.ContentColumn then processRows p rest
    else
      let filePath := record.getD p.PathColumn ""
      let content := record.getD p.ContentColumn ""
      if filePath = "" then processRows p rest
      else ⟨filePath, content⟩ :: processRows p rest

/-- Model of `csv.Process` from `csv.go`, as a function of the rows produced by
`encoding/csv`'s `ReadAll` on the opened file.  The emptiness check runs on
the raw row count, before the header row is discarded. -/
def Process (p : Processor) (records : List (List String)) :
    Except String (List FileResult) :=
  if records.length = 0 then .error "CSV file is empty"
  else
    let startIndex := if p.HasHeader then 1 else 0
    .ok (processRows p (records.drop startIndex))

/-- The fate of a single data row under the loop of `csv.Process`:
`none` when the row is skipped, `some` when a record is emitted. -/
def rowRecord (p : Processor) (record : List String) : Option FileResult :=
  if record.length ≤ p.PathColumn ∨ record.length ≤ p.ContentColumn then none
  else if record.getD p.PathColumn "" = "" then none
  else some ⟨record.getD p.PathColumn "", record.getD p.ContentColumn ""⟩

end csv

namespace database

/-- A live `*sql.DB` handle; `closeErr` is the (unknown to the program)
error that `db.Close()` will report for this handle. -/
structure DBHandle where
  closeErr : Option String
deriving Repr, DecidableEq

/-- Model of `database.Processor` from the hardened `database.go`.  `db` is the
internal `*sql.DB` pointer, `none` when nil. -/
structure Processor where
  DBType : String
  Host : String
  Port : Int
  DBName : String
  User : String
  Password : String
  SSLMode : String
  TableName : String
  ColumnPath : String
  ColumnContent : String
  ColumnType : String
  ColumnSize : String
  CustomQuery : String
  Debug : Bool
  db : Option DBHandle
deriving Repr

/-- The `switch p.DBType` of `Connect`: driver name and data-source string,
`none` for an unsupported type. -/
def driverAndDSN (p : Processor) : Option (String × String) :=
  if p.DBType = "postgres" then
    some ("postgres",
      "host=" ++ p.Host ++ " port=" ++ toString p.Port ++ " user=" ++ p.User ++
      " password=" ++ p.Password ++ " dbname=" ++ p.DBName ++ " sslmode=" ++ p.SSLMode)
  else if p.DBType = "mysql" then
    some ("mysql",
      p.User ++ ":" ++ p.Password ++ "@tcp(" ++ p.Host ++ ":" ++ toString p.Port ++ ")/" ++ p.DBName)
  else if p.DBType = "sqlite" then
    some ("sqlite3", p.DBName)
  else none

/-- The outcome of the external steps of `Connect`: `sql.Open` failing,
`db.Ping` failing (the opened handle is closed again), or both succeeding
with a live handle. -/
inductive ConnectEnv where
  | openFail
  | pingFail (h : DBHandle)
  | ok (h : DBHandle)
deriving Repr, DecidableEq

/-- Model of `(*Processor).Connect` of the hardened `database.go`: on every failure a
fixed generic message is returned and the processor keeps a nil handle. -/
def Connect (p : Processor) (env : ConnectEnv) : Option String × Processor :=
  match driverAndDSN p with
  | none => (some "unsupported database type", p)
  | some _ =>
    match env with
    | .openFail => (some "failed to establish database connection", p)
    | .pingFail _ => (some "database connection test failed", p)
    | .ok h => (none, { p with db := some h })

/-- Model of `(*Processor).Close`: closes a non-nil handle and nils it; a nil handle
returns a nil error. -/
def Close (p : Processor) : Option String × Processor :=
  match p.db with
  | some h => (h.closeErr, { p with db := none })
  | none => (none, p)

/-- Model of `(*Processor).buildQuery` of the hardened `database.go`: a pair of the
returned query string and the returned error, `("", some e)` on failure. -/
def buildQuery (p : Processor) : String × Option String :=
  if p.CustomQuery ≠ "" then (p.CustomQuery, none)
  else
    match validation.ValidateSQLIdentifier p.TableName "table_name" with
    | some e => ("", some ("invalid table name: " ++ e.errorString))
    | none =>
      match validation.ValidateSQLIdentifier p.ColumnPath "column_path" with
      | some e => ("", some ("invalid path column: " ++ e.errorString))
      | none =>
        match validation.ValidateSQLIdentifier p.ColumnContent "column_content" with
        | some e => ("", some ("invalid content column: " ++ e.errorString))
        | none =>
          match (if p.ColumnType ≠ "" then
                   (validation.ValidateSQLIdentifier p.ColumnType "column_type").map
                     (fun e => "invalid type column: " ++ e.errorString)
                 else none) with
          | some msg => ("", some msg)
          | none =>
            match (if p.ColumnSize ≠ "" then
                     (validation.ValidateSQLIdentifier p.ColumnSize "column_size").map
                       (fun e => "invalid size column: " ++ e.errorString)
                   else none) with
            | some msg => ("", some msg)
            | none =>
              let columns := [p.ColumnPath, p.ColumnContent] ++
                (if p.ColumnType ≠ "" then [p.ColumnType] else []) ++
                (if p.ColumnSize ≠ "" then [p.ColumnSize] else [])
              ("SELECT " ++ String.intercalate ", " columns ++ " FROM " ++ p.TableName, none)

/-- Model of `(*Processor).Validate` of the hardened `database.go`, with each Go error
rendered as its message string. -/
def Validate (p : Processor) : Option String :=
  match validation.ValidateDatabaseType p.DBType "db_type" with
  | some e => some e.errorString
  | none =>
    match (if p.DBType ≠ "sqlite" then
             match validation.ValidateHost p.Host "host" with
             | some e => some e.errorString
             | none =>
               match validation.ValidatePort p.Port "port" with
               | some e => some e.errorString
               | none =>
                 if p.User = "" then some ("user is required for " ++ p.DBType) else none
           else none) with
    | some msg => some msg
    | none =>
      if p.DBName = "" then some "database name is required"
      else if p.CustomQuery ≠ "" then
        (validation.ValidateCustomQuery p.CustomQuery "custom_query").map
          validation.ValidationError.errorString
      else
        match validation.ValidateSQLIdentifier p.TableName "table_name" with
        | some e => some e.errorString
        | none =>
          match validation.ValidateSQLIdentifier p.ColumnPath "column_path" with
          | some e => some e.errorString
          | none =>
            match validation.ValidateSQLIdentifier p.ColumnContent "column_content" with
            | some e => some e.errorString
            | none =>
              match (if p.ColumnType ≠ "" then
                       (validation.ValidateSQLIdentifier p.ColumnType "column_type").map
                         validation.ValidationError.errorString
                     else none) with
              | some msg => some msg
              | none =>
                if p.ColumnSize ≠ "" then
                  (validation.ValidateSQLIdentifier p.ColumnSize "column_size").map
                    validation.ValidationError.errorString
                else none

end database

/-! Concrete inputs used by witnesses and counterexamples. -/

/-- A well-formed postgres configuration: default table/column names, no
custom query, nil handle. -/
def pgExample : database.Processor :=
  { DBType := "postgres", Host := "localhost", Port := 5432, DBName := "codex",
    User := "user1", Password := "secret", SSLMode := "disable",
    TableName := "code_files", ColumnPath := "file_path", ColumnContent := "content",
    ColumnType := "", ColumnSize := "", CustomQuery := "", Debug := false, db := none }

/-- Two roots, no filters. -/
def walkConfig : processor.Config :=
  { Dirs := ["root1", "bad"], IgnoreFiles := [], IgnoreDirs := [], IgnoreExts := [],
    IncludeExts := [], Recursive := true, Debug := false }

/-- A filesystem where `root1` holds one readable file and every other root
fails to stat. -/
def walkFS : String → processor.FSTree := fun d =>
  if d = "root1" then
    processor.FSTree.dir "root1"
      (processor.FSForest.cons (processor.FSTree.file "a.txt" (some "hello"))
        processor.FSForest.nil)
  else processor.FSTree.errNode d

/-- A tabular processor reading path from column 0 and content from column 1,
with a header row. -/
def csvExample : csv.Processor :=
  { FilePath := "test.csv", Delimiter := ',', PathColumn := 0, ContentColumn := 1,
    HasHeader := true, Debug := false }

/-- An extension that is simultaneously allowlisted and denylisted. -/
def overlapConfig : processor.Config :=
  { Dirs := [], IgnoreFiles := [], IgnoreDirs := [], IgnoreExts := ["go"],
    IncludeExts := ["go"], Recursive := true, Debug := false }

/-- Distinct allowlist and denylist entries. -/
def allowConfig : processor.Config :=
  { Dirs := [], IgnoreFiles := [], IgnoreDirs := [], IgnoreExts := ["log"],
    IncludeExts := ["go"], Recursive := true, Debug := false }

/-- A 10001-byte query, one byte over `MaxQueryLength`. -/
def longQuery : String := String.mk (List.replicate 10001 'a')

/-- Variant of `pgExample` with an injection attempt as table name. -/
def pgBadTable : database.Processor :=
  { pgExample with TableName := "code_files; DROP TABLE users" }

/-- Variant of `pgExample` with different credentials, endpoint and database. -/
def pgExampleAlt : database.Processor :=
  { pgExample with Host := "db.internal", User := "admin", Password := "hunter2",
                   DBName := "prod" }

/-! Theorems. -/

/-- Claim C1 (code bug evidence): `ValidateSQLIdentifier` accepts
`"xp_cmdshell"` even though its uppercased form contains the denylisted
substring `XP_`: the code compares the uppercased name with the lowercase
patterns `xp_`/`sp_`, which therefore can never match. -/
theorem validateSQLIdentifier_accepts_xp :
    validation.ValidateSQLIdentifier "xp_cmdshell" "table_name" = none ∧
    goContains (goToUpper "xp_cmdshell") "XP_" = true ∧
    "xp_" ∈ validation.sqlInjectionPatterns := by
  refine ⟨by decide, by decide, by decide⟩

/-- Claim C9: `ValidateCustomQuery` accepts a stacked statement containing a
semicolon, because it only requires a `SELECT` prefix and absence of the fixed
keyword list, and `";"` is not in that list. -/
theorem validateCustomQuery_accepts_stacked :
    validation.ValidateCustomQuery "SELECT a FROM b; SELECT c FROM d" "custom_query" = none ∧
    goContains "SELECT a FROM b; SELECT c FROM d" ";" = true ∧
    ";" ∉ validation.dangerousKeywords := by
  refine ⟨by decide, by decide, by decide⟩

/-- Claim C8: `database.Close` is total and idempotent: closing a nil handle
returns a nil error and leaves the processor unchanged; after any close the
handle is nil, so a second close also returns a nil error. -/
theorem close_idempotent (p : database.Processor) :
    (p.db = none → database.Close p = (none, p)) ∧
    (database.Close p).2.db = none ∧
    database.Close (database.Close p).2 = (none, (database.Close p).2) := by
  cases h : p.db with
  | none => simp [database.Close, h]
  | some hd => simp [database.Close, h]

/-- Witness for `close_idempotent`: a never-connected processor closes with a
nil error and is unchanged. -/
theorem close_idempotent_witness :
    database.Close pgExample = (none, pgExample) :=
  (close_idempotent pgExample).1 rfl

/-- `ValidateCustomQuery` accepts exactly the empty query and the queries that
are within the length bound, start (after trim/uppercase) with `SELECT`, and
contain none of the `dangerousKeywords` literally. -/
theorem validateCustomQuery_none_iff (q f : String) :
    validation.ValidateCustomQuery q f = none ↔
      (q = "" ∨
        (goLen q ≤ validation.MaxQueryLength ∧
         goStartsWith (goTrimSpace (goToUpper q)) "SELECT" = true ∧
         ∀ k ∈ validation.dangerousKeywords,
           goContains (goTrimSpace (goToUpper q)) k = false)) := by
  by_cases hq : q = ""
  · simp [validation.ValidateCustomQuery, hq]
  · simp only [validation.ValidateCustomQuery, if_neg hq]
    by_cases hl : validation.MaxQueryLength < goLen q
    · simp only [if_pos hl]
      constructor
      · intro h; exact absurd h (by simp)
      · rintro (h | ⟨h1, _⟩)
        · exact absurd h hq
        · omega
    · simp only [if_neg hl]
      by_cases hp : goStartsWith (goTrimSpace (goToUpper q)) "SELECT" = true
      · simp only [hp, Bool.not_true, Bool.false_eq_true, if_false]
        cases hf : validation.dangerousKeywords.find?
            (fun keyword => goContains (goTrimSpace (goToUpper q)) keyword) with
        | some k =>
          simp only [Option.some_ne_none, false_iff]
          rintro (h | ⟨_, _, hall⟩)
          · exact hq h
          · have hk := List.find?_some hf
            have hmem := List.mem_of_find?_eq_some hf
            have := hall k hmem
            simp [this] at hk
        | none =>
          simp only [true_iff]
          right
          refine ⟨by omega, by simp [hp], ?_⟩
          intro k hk
          have := List.find?_eq_none.mp hf k hk
          simpa using this
      · simp only [Bool.not_eq_true] at hp
        simp only [hp, Bool.not_false, if_true]
        constructor
        · intro h; exact absurd h (by simp)
        · rintro (h | ⟨_, h2, _⟩)
          · exact absurd h hq
          · simp [hp] at h2

/-- Claim C3: `ValidateCustomQuery` accepts the empty string and the built
default query; it rejects every query over 10000 bytes, every non-empty query
whose trimmed-uppercased form does not start with `SELECT` (hence
`"DELETE FROM code_files"`), and every non-empty query whose trimmed-uppercased
form contains a denylisted keyword (hence the stacked `DROP` query). -/
theorem validateCustomQuery_policy (q : String) :
    validation.ValidateCustomQuery "" "custom_query" = none ∧
    validation.ValidateCustomQuery "SELECT file_path, content FROM code_files" "custom_query" = none ∧
    (validation.MaxQueryLength < goLen q →
      (validation.ValidateCustomQuery q "custom_query").isSome = true) ∧
    (q ≠ "" → goStartsWith (goTrimSpace (goToUpper q)) "SELECT" = false →
      (validation.ValidateCustomQuery q "custom_query").isSome = true) ∧
    (validation.ValidateCustomQuery "DELETE FROM code_files" "custom_query").isSome = true ∧
    (q ≠ "" →
      (∃ k ∈ validation.dangerousKeywords,
        goContains (goTrimSpace (goToUpper q)) k = true) →
      (validation.ValidateCustomQuery q "custom_query").isSome = true) ∧
    (validation.ValidateCustomQuery "SELECT * FROM code_files; DROP TABLE code_files"
      "custom_query").isSome = true := by
  refine ⟨by decide, by decide, ?_, ?_, by decide, ?_, by decide⟩
  · intro h
    rw [Option.isSome_iff_ne_none]
    intro hnone
    rcases (validateCustomQuery_none_iff q "custom_query").mp hnone with h1 | ⟨h1, _⟩
    · subst h1; revert h; decide
    · omega
  · intro hq hpre
    rw [Option.isSome_iff_ne_none]
    intro hnone
    rcases (validateCustomQuery_none_iff q "custom_query").mp hnone with h1 | ⟨_, h2, _⟩
    · exact hq h1
    · rw [hpre] at h2; exact Bool.false_ne_true h2
  · intro hq hex
    rw [Option.isSome_iff_ne_none]
    intro hnone
    rcases (validateCustomQuery_none_iff q "custom_query").mp hnone with h1 | ⟨_, _, hall⟩
    · exact hq h1
    · obtain ⟨k, hk, hck⟩ := hex
      have := hall k hk
      rw [this] at hck
      exact Bool.false_ne_true hck

/-- `goLen` of an `n`-fold repetition of the ASCII character `a` is `n`. -/
theorem goLen_replicate_a (n : Nat) :
    goLen (String.mk (List.replicate n 'a')) = n := by
  have aux : ∀ (m acc : Nat),
      List.foldl (fun k c => k + charUtf8Size c) acc (List.replicate m 'a') = acc + m := by
    intro m
    induction m with
    | zero => intro acc; simp
    | succ m ih =>
      intro acc
      rw [List.replicate_succ, List.foldl_cons, ih]
      have : charUtf8Size 'a' = 1 := by decide
      omega
  show List.foldl _ 0 (String.mk (List.replicate n 'a')).toList = n
  have : (String.mk (List.replicate n 'a')).toList = List.replicate n 'a' := rfl
  rw [this, aux]
  omega

/-- Witness for `validateCustomQuery_policy`: a 10001-byte query, a non-SELECT
query and a stacked DROP query are all rejected. -/
theorem validateCustomQuery_policy_witness :
    (validation.ValidateCustomQuery longQuery "custom_query").isSome = true ∧
    (validation.ValidateCustomQuery "DELETE FROM code_files" "custom_query").isSome = true ∧
    (validation.ValidateCustomQuery "SELECT * FROM code_files; DROP TABLE code_files"
      "custom_query").isSome = true := by
  refine ⟨?_, ?_, ?_⟩
  · exact (validateCustomQuery_policy longQuery).2.2.1
      (by rw [show goLen longQuery = 10001 from goLen_replicate_a 10001]; decide)
  · exact (validateCustomQuery_policy "DELETE FROM code_files").2.2.2.1
      (by decide) (by decide)
  · exact (validateCustomQuery_policy
      "SELECT * FROM code_files; DROP TABLE code_files").2.2.2.2.2.1
      (by decide) ⟨"DROP", by decide, by decide⟩

/-- Claim C2: with no custom query, default path/content columns and table
`code_files`, `buildQuery` returns exactly
`"SELECT file_path, content FROM code_files"` and no error; and whenever the
table name fails identifier validation (custom query empty), `buildQuery`
returns an empty query string with an error and `Validate` also errors. -/
theorem buildQuery_default_and_rejects_bad_table (p : database.Processor) :
    database.buildQuery pgExample = ("SELECT file_path, content FROM code_files", none) ∧
    (p.CustomQuery = "" →
      (validation.ValidateSQLIdentifier p.TableName "table_name").isSome = true →
      ((database.buildQuery p).1 = "" ∧ (database.buildQuery p).2.isSome = true ∧
        (database.Validate p).isSome = true)) := by
  refine ⟨by decide, ?_⟩
  intro hcq hv
  obtain ⟨e, he⟩ := Option.isSome_iff_exists.mp hv
  refine ⟨?_, ?_, ?_⟩
  · simp [database.buildQuery, hcq, he]
  · simp [database.buildQuery, hcq, he]
  · rw [Option.isSome_iff_ne_none]
    intro hnone
    simp only [database.Validate, hcq, he, ne_eq, not_true_eq_false, if_false] at hnone
    split at hnone
    · exact Option.noConfusion hnone
    · split at hnone
      · exact Option.noConfusion hnone
      · split at hnone
        · exact Option.noConfusion hnone
        · simp at hnone

/-- Witness for `buildQuery_default_and_rejects_bad_table`: the injection
attempt `"code_files; DROP TABLE users"` as table name makes `buildQuery`
produce no query and an error, and makes `Validate` fail. -/
theorem buildQuery_rejects_bad_table_witness :
    (database.buildQuery pgBadTable).1 = "" ∧
    (database.buildQuery pgBadTable).2.isSome = true ∧
    (database.Validate pgBadTable).isSome = true :=
  (buildQuery_default_and_rejects_bad_table pgBadTable).2 rfl (by decide)

/-- `driverAndDSN` yields no driver exactly for the unsupported types. -/
theorem driverAndDSN_none_iff (p : database.Processor) :
    database.driverAndDSN p = none ↔
      (p.DBType ≠ "postgres" ∧ p.DBType ≠ "mysql" ∧ p.DBType ≠ "sqlite") := by
  unfold database.driverAndDSN
  split_ifs with h1 h2 h3 <;> simp_all

/-- Claim C4: every failure of `Connect` yields one of three fixed generic
messages, none depending on host, port, user, password, database name or the
built connection string: two configurations with the same `DBType` produce
identical `Connect` messages under every environment outcome. -/
theorem connect_messages_credential_independent :
    (∀ (p q : database.Processor) (env : database.ConnectEnv),
      p.DBType = q.DBType →
      (database.Connect p env).1 = (database.Connect q env).1) ∧
    (∀ (p : database.Processor) (env : database.ConnectEnv) (msg : String),
      (database.Connect p env).1 = some msg →
      msg = "unsupported database type" ∨
      msg = "failed to establish database connection" ∨
      msg = "database connection test failed") := by
  constructor
  · intro p q env hdb
    cases hp : database.driverAndDSN p with
    | none =>
      have hq : database.driverAndDSN q = none := by
        rw [driverAndDSN_none_iff] at hp ⊢
        rwa [← hdb]
      simp [database.Connect, hp, hq]
    | some dd =>
      cases hq : database.driverAndDSN q with
      | none =>
        exfalso
        rw [driverAndDSN_none_iff] at hq
        rw [← hdb] at hq
        have : database.driverAndDSN p = none := (driverAndDSN_none_iff p).mpr hq
        rw [this] at hp
        exact Option.noConfusion hp
      | some dd2 =>
        cases env <;> simp [database.Connect, hp, hq]
  · intro p env msg h
    cases hp : database.driverAndDSN p with
    | none =>
      simp [database.Connect, hp] at h
      tauto
    | some dd =>
      cases env <;> simp [database.Connect, hp] at h <;> tauto

/-- Witness for `connect_messages_credential_independent`: two postgres
configurations differing in host, user, password and database name produce the
same message when the connection test fails, and that message is in the fixed
set. -/
theorem connect_messages_witness :
    (database.Connect pgExample (database.ConnectEnv.pingFail ⟨none⟩)).1 =
      (database.Connect pgExampleAlt (database.ConnectEnv.pingFail ⟨none⟩)).1 ∧
    ("database connection test failed" = "unsupported database type" ∨
     "database connection test failed" = "failed to establish database connection" ∨
     "database connection test failed" = "database connection test failed") :=
  ⟨connect_messages_credential_independent.1 pgExample pgExampleAlt
      (database.ConnectEnv.pingFail ⟨none⟩) rfl,
   connect_messages_credential_independent.2 pgExample
      (database.ConnectEnv.pingFail ⟨none⟩)
      "database connection test failed" (by decide)⟩

/-- The row loop of `csv.Process` emits, in order, exactly the rows kept by
`rowRecord`. -/
theorem processRows_eq_filterMap (p : csv.Processor) (rows : List (List String)) :
    csv.processRows p rows = rows.filterMap (csv.rowRecord p) := by
  induction rows with
  | nil => rfl
  | cons r rest ih =>
    simp only [csv.processRows, csv.rowRecord, List.filterMap_cons, ih]
    split_ifs <;> simp_all <;> omega

/-- Claim C7: `csv.Process` fails on a parse yielding zero rows, and otherwise
succeeds with exactly the in-order records of the data rows, skipping (without
failing) each row whose path or content column is out of range or whose path
value is empty. -/
theorem csvProcess_skips_bad_rows (p : csv.Processor) (records : List (List String)) :
    csv.Process p [] = Except.error "CSV file is empty" ∧
    (records ≠ [] →
      csv.Process p records =
        Except.ok ((if p.HasHeader then records.drop 1 else records).filterMap
          (csv.rowRecord p))) := by
  constructor
  · rfl
  · intro h
    have hlen : records.length ≠ 0 := by
      intro hc; exact h (List.length_eq_zero.mp hc)
    simp only [csv.Process, hlen, if_neg hlen]
    rw [processRows_eq_filterMap]
    cases hh : p.HasHeader <;> simp

/-- Witness for `csvProcess_skips_bad_rows`: with a header row, a short row
and an empty-path row are skipped while the two good rows come through in
file order. -/
theorem csvProcess_skips_bad_rows_witness :
    csv.Process csvExample
      [["path", "content"], ["a", "x"], ["short"], ["", "y"], ["b", "z"]] =
      Except.ok [⟨"a", "x"⟩, ⟨"b", "z"⟩] := by
  have h := (csvProcess_skips_bad_rows csvExample
    [["path", "content"], ["a", "x"], ["short"], ["", "y"], ["b", "z"]]).2 (by decide)
  rw [h]
  rfl

/-- Claim C10: with `HasHeader = true`, a parse yielding exactly one row (the
header) is not an empty file: `Process` succeeds with zero records, because
the emptiness check runs on the raw row count before the header is dropped. -/
theorem csvProcess_header_only_ok (p : csv.Processor) (row : List String)
    (h : p.HasHeader = true) :
    csv.Process p [row] = Except.ok [] := by
  simp [csv.Process, h, csv.processRows]

/-- Witness for `csvProcess_header_only_ok`: a single header row yields
success with no records. -/
theorem csvProcess_header_only_witness :
    csv.Process csvExample [["path", "content"]] = Except.ok [] :=
  csvProcess_header_only_ok csvExample ["path", "content"] rfl

/-- If the per-root loop ends with an error, the record list it returns is
empty. -/
theorem processFilesLoop_error_nil (config : processor.Config)
    (fs : String → processor.FSTree) (dirs : List String) :
    ∀ (acc : List FileResult) (e : String),
      (processor.ProcessFilesLoop config fs dirs acc).2 = some e →
      (processor.ProcessFilesLoop config fs dirs acc).1 = [] := by
  induction dirs with
  | nil => intro acc e h; simp [processor.ProcessFilesLoop] at h
  | cons d rest ih =>
    intro acc e h
    simp only [processor.ProcessFilesLoop] at h ⊢
    cases hw : processor.walkTree config d d (fs d) with
    | error e2 => simp [hw]
    | ok rs =>
      rw [hw] at h
      exact ih _ e h

/-- The per-root loop succeeds exactly when every remaining root walks without
error. -/
theorem processFilesLoop_none_iff (config : processor.Config)
    (fs : String → processor.FSTree) (dirs : List String) :
    ∀ acc : List FileResult,
      ((processor.ProcessFilesLoop config fs dirs acc).2 = none ↔
        ∀ d ∈ dirs, ∃ rs, processor.walkTree config d d (fs d) = Except.ok rs) := by
  induction dirs with
  | nil => intro acc; simp [processor.ProcessFilesLoop]
  | cons d rest ih =>
    intro acc
    cases hw : processor.walkTree config d d (fs d) with
    | error e =>
      simp only [processor.ProcessFilesLoop, hw]
      constructor
      · intro h; exact absurd h (by simp)
      · intro h
        obtain ⟨rs, hrs⟩ := h d (by simp)
        rw [hw] at hrs
        exact Except.noConfusion hrs
    | ok rs =>
      simp only [processor.ProcessFilesLoop, hw]
      rw [ih]
      constructor
      · intro h d2 hd2
        rcases List.mem_cons.mp hd2 with h1 | h1
        · subst h1; exact ⟨rs, hw⟩
        · exact h d2 h1
      · intro h d2 hd2
        exact h d2 (List.mem_cons_of_mem _ hd2)

/-- When the roots before `d` walk cleanly and `d`'s walk fails with `e`, the
loop returns `([], some e)`, discarding every accumulated record. -/
theorem processFilesLoop_first_error (config : processor.Config)
    (fs : String → processor.FSTree) (pre : List String) :
    ∀ (d : String) (post : List String) (acc : List FileResult) (e : String),
      (∀ d2 ∈ pre, ∃ rs, processor.walkTree config d2 d2 (fs d2) = Except.ok rs) →
      processor.walkTree config d d (fs d) = Except.error e →
      processor.ProcessFilesLoop config fs (pre ++ d :: post) acc = ([], some e) := by
  induction pre with
  | nil =>
    intro d post acc e _ hw
    simp [processor.ProcessFilesLoop, hw]
  | cons p1 rest ih =>
    intro d post acc e hpre hw
    obtain ⟨rs, hrs⟩ := hpre p1 (by simp)
    simp only [List.cons_append, processor.ProcessFilesLoop, hrs]
    exact ih d post _ e (fun d2 hd2 => hpre d2 (by simp [hd2])) hw

/-- Claim C5: `ProcessFiles` returns records only when every root walked
without error; on any walk or read error it returns that error with a nil
record list, discarding records already produced by earlier files and earlier
roots. -/
theorem processFiles_abort_on_error (config : processor.Config)
    (fs : String → processor.FSTree) :
    (∀ e, (processor.ProcessFiles config fs).2 = some e →
      (processor.ProcessFiles config fs).1 = []) ∧
    ((processor.ProcessFiles config fs).2 = none ↔
      ∀ d ∈ config.Dirs, ∃ rs, processor.walkTree config d d (fs d) = Except.ok rs) ∧
    (∀ pre d post e, config.Dirs = pre ++ d :: post →
      (∀ d2 ∈ pre, ∃ rs, processor.walkTree config d2 d2 (fs d2) = Except.ok rs) →
      processor.walkTree config d d (fs d) = Except.error e →
      processor.ProcessFiles config fs = ([], some e)) := by
  refine ⟨?_, ?_, ?_⟩
  · intro e h
    exact processFilesLoop_error_nil config fs config.Dirs [] e h
  · exact processFilesLoop_none_iff config fs config.Dirs []
  · intro pre d post e hdirs hpre hw
    unfold processor.ProcessFiles
    rw [hdirs]
    exact processFilesLoop_first_error config fs pre d post [] e hpre hw

/-- Witness for `processFiles_abort_on_error`: the first root yields a record
but the second root fails to walk, so the whole call returns no records and
the walk error. -/
theorem processFiles_abort_witness :
    processor.ProcessFiles walkConfig walkFS = ([], some "walk error at bad") := by
  refine (processFiles_abort_on_error walkConfig walkFS).2.2
    ["root1"] "bad" [] "walk error at bad" rfl ?_ ?_
  · intro d2 hd2
    have h : d2 = "root1" := by simpa using hd2
    subst h
    exact ⟨[⟨"root1/a.txt", "hello"⟩], rfl⟩
  · rfl

/-- Membership form of the extension comparisons in `shouldIgnoreFile`. -/
theorem any_beq_mem (l : List String) (x : String) :
    (l.any fun e => x == e) = true ↔ x ∈ l := by
  rw [List.any_eq_true]
  constructor
  · rintro ⟨e, he, hx⟩
    rw [beq_iff_eq] at hx
    rwa [hx]
  · intro hx
    exact ⟨x, hx, by simp⟩

/-- Claim C6 counterexample: with `IncludeExts = ["go"]` and
`IgnoreExts = ["go"]`, the file `a.go` is not name-ignored and its extension
is allowlisted, yet `shouldIgnoreFile` ignores it: the denylist is consulted
even when the allowlist is non-empty. -/
theorem shouldIgnoreFile_overlap_counterexample :
    overlapConfig.IncludeExts ≠ [] ∧
    (∀ f ∈ overlapConfig.IgnoreFiles, filepathBase "a.go" ≠ f) ∧
    goTrimLeading (filepathExt "a.go") "." ∈ overlapConfig.IncludeExts ∧
    processor.shouldIgnoreFile "a.go" overlapConfig = true := by
  refine ⟨by decide, by decide, by decide, by decide⟩

/-- Claim C6 (amended): when the extension allowlist is non-empty, a file that
is not name-ignored is kept if and only if its extension is in the allowlist
and not in the denylist — the denylist is consulted in every case. -/
theorem shouldIgnoreFile_allowlist_and_denylist (config : processor.Config)
    (path : String) (hinc : config.IncludeExts ≠ [])
    (hname : ∀ f ∈ config.IgnoreFiles, filepathBase path ≠ f) :
    processor.shouldIgnoreFile path config = false ↔
      (goTrimLeading (filepathExt path) "." ∈ config.IncludeExts ∧
       goTrimLeading (filepathExt path) "." ∉ config.IgnoreExts) := by
  have hbase : (config.IgnoreFiles.any fun ignoreFile => filepathBase path == ignoreFile)
      = false := by
    rw [List.any_eq_false]
    intro f hf
    simpa using hname f hf
  have hlen : 0 < config.IncludeExts.length := List.length_pos.mpr hinc
  by_cases ha : (config.IncludeExts.any fun e => goTrimLeading (filepathExt path) "." == e)
      = true
  · have hmem := (any_beq_mem _ _).mp ha
    simp only [processor.shouldIgnoreFile, hbase, Bool.false_eq_true, if_false, ha,
      Bool.not_true, Bool.and_false, hmem, true_and]
    rw [← any_beq_mem config.IgnoreExts]
    exact Bool.eq_false_iff
  · have hnot : goTrimLeading (filepathExt path) "." ∉ config.IncludeExts := by
      rw [← any_beq_mem]; exact ha
    simp only [Bool.not_eq_true] at ha
    simp only [processor.shouldIgnoreFile, hbase, Bool.false_eq_true, if_false, ha,
      Bool.not_false, Bool.and_true]
    rw [decide_eq_true hlen]
    simp [hnot]

/-- Witness for `shouldIgnoreFile_allowlist_and_denylist`: with allowlist
`["go"]` and denylist `["log"]`, the file `a.go` is kept. -/
theorem shouldIgnoreFile_allowlist_witness :
    processor.shouldIgnoreFile "a.go" allowConfig = false :=
  (shouldIgnoreFile_allowlist_and_denylist allowConfig "a.go" (by decide)
    (by decide)).mpr ⟨by decide, by decide⟩

end Codex
